import Mathlib

/-!
Verification of the src-cli batch task execution engine and the scout
advise subsystem.

The executor, workspace, step runner and template evaluator are not part
of the sampled sources (only their test file is), so they are modelled
from the specification document, informed by the surviving test
expectations.  The scout advise functions (`checkUsage`, `Advise`,
`outputToFile`) are embedded directly from
`internal/scout/advise/k8s.go`.
-/

deriving instance DecidableEq for Except

/-! ## File systems

A workspace's files are an association list from path to content. -/

abbrev FS := List (String × String)

/-- Look up the content of a path in a file system. -/
def FS.get (fs : FS) (p : String) : Option String :=
  (fs.find? (fun kv => kv.1 == p)).map (fun kv => kv.2)

/-- Write a path's content, replacing an existing entry or appending a new one. -/
def FS.set (fs : FS) (p v : String) : FS :=
  if (fs.find? (fun kv => kv.1 == p)).isSome then
    fs.map (fun kv => if kv.1 == p then (p, v) else kv)
  else
    fs ++ [(p, v)]

/-- First-occurrence deduplication, with an accumulator of already seen keys. -/
def dedupAux (seen : List String) : List String → List String
  | [] => []
  | p :: rest =>
    if seen.contains p then dedupAux seen rest
    else p :: dedupAux (p :: seen) rest

/-- The distinct paths present in a file system. -/
def FS.keys (fs : FS) : List String :=
  dedupAux [] (fs.map (fun kv => kv.1))

/-- Paths present in `after` whose content differs from `before`
(new files and modified files). -/
def changedKeys (before after : FS) : List String :=
  (FS.keys after).filter (fun p => !(FS.get before p == FS.get after p))

/-- Modelled from the spec: `ChangedFiles` reports the files added since the
previous baseline (present now, absent before). -/
def addedFiles (before after : FS) : List String :=
  (FS.keys after).filter
    (fun p => (FS.get before p).isNone && (FS.get after p).isSome)

/-- Modelled from the spec: `ChangedFiles` reports the files modified since
the previous baseline (present before, with different content now). -/
def modifiedFiles (before after : FS) : List String :=
  (FS.keys after).filter
    (fun p => (FS.get before p).isSome && !(FS.get before p == FS.get after p))

/-! ## String helpers

List-of-character based helpers used by the model of the shell and of the
archive subtree extraction. -/

/-- Drop the first `n` characters of a string. -/
def strDrop (s : String) (n : Nat) : String := String.mk (s.data.drop n)

/-- Drop the last character of a string. -/
def strDropLast (s : String) : String := String.mk s.data.dropLast

/-- Whether `pre` occurs at the start of `s`. -/
def strStarts (s pre : String) : Bool := s.data.take pre.data.length == pre.data

/-- Whether `suf` occurs at the end of `s`. -/
def strEnds (s suf : String) : Bool :=
  s.data.reverse.take suf.data.length == suf.data.reverse

/-- Modelled from the spec: trailing newline normalization applied to a
step's captured standard output. -/
def trimEndNewlines (s : String) : String :=
  String.mk (s.data.reverse.dropWhile (fun c => c == '\n')).reverse

/-! ## Commands

Modelled from the spec: the external process runtime is a black box
reached through a narrow process-execution interface.  The model gives a
semantics to exactly the command shapes exercised by the engine's test
file: `true`, `false`, an unbounded `while true` loop, `echo "..."`,
`touch <file>` and `go fmt <file>`. -/

inductive CmdOutcome where
  | ok (stdout : String) (fs : FS)
  | exited (code : Nat) (stdout stderr : String)
  | diverge
deriving DecidableEq, Repr

/-- Modelled from the spec: `go fmt` canonicalizes a file, here by ensuring
a trailing newline. -/
def gofmt (c : String) : String := if strEnds c "\n" then c else c ++ "\n"

/-- Modelled from the spec: run one rendered shell command against the
workspace files, capturing standard output.  A command that loops forever
is reported as `diverge`. -/
def runCommand (cmd : String) (fs : FS) : CmdOutcome :=
  if cmd == "true" then .ok "" fs
  else if cmd == "false" then .exited 1 "" ""
  else if strStarts cmd "while true" then .diverge
  else if strStarts cmd "echo \"" && strEnds cmd "\"" then
    .ok (strDropLast (strDrop cmd 6) ++ "\n") fs
  else if strStarts cmd "touch " then
    let f := strDrop cmd 6
    match FS.get fs f with
    | some _ => .ok "" fs
    | none => .ok "" (FS.set fs f "")
  else if strStarts cmd "go fmt " then
    let f := strDrop cmd 7
    match FS.get fs f with
    | some c => .ok "" (FS.set fs f (gofmt c))
    | none => .exited 2 "" ("stat " ++ f ++ ": file does not exist")
  else .exited 127 "" ("command not found: " ++ cmd)

/-! ## Template expressions

Modelled from the spec: the templating mini-language embedded in step
fields, with the identifier paths and built-in functions the spec names. -/

/-- The recorded context of one completed step. -/
structure StepCtx where
  stdout : String
  addedFiles : List String
  modifiedFiles : List String
deriving DecidableEq, Repr

inductive Value where
  | str (s : String)
  | list (xs : List String)
  | bool (b : Bool)
deriving DecidableEq, Repr

inductive Expr where
  | lit (s : String)
  | repoName
  | stepStdout
  | prevModified
  | prevAdded
  | output (name : String)
  | joinExpr (e : Expr) (sep : String)
  | eqExpr (a b : Expr)
deriving DecidableEq, Repr

inductive TemplateErr where
  | unresolved (what : String)
deriving DecidableEq, Repr

/-- The evaluation context offered to template expressions: repository
attributes, the previous completed step, the current step's captured
standard output (only while rendering outputs), and the global outputs. -/
structure EvalCtx where
  repoName : String
  prevStep : Option StepCtx
  stepStdout : Option String
  outputs : List (String × String)
deriving DecidableEq, Repr

/-- Look up a recorded global output by name. -/
def lookupOutput (outs : List (String × String)) (n : String) : Option String :=
  (outs.find? (fun kv => kv.1 == n)).map (fun kv => kv.2)

/-- Render a template value as a string fragment. -/
def valueToString : Value → String
  | .str s => s
  | .list xs => String.intercalate " " xs
  | .bool b => if b then "true" else "false"

/-- Modelled from the spec: evaluate one expression against the context;
an unresolved identifier fails with a template error instead of
substituting an empty value. -/
def evalExpr (ctx : EvalCtx) : Expr → Except TemplateErr Value
  | .lit s => .ok (.str s)
  | .repoName => .ok (.str ctx.repoName)
  | .stepStdout =>
    match ctx.stepStdout with
    | some out => .ok (.str (trimEndNewlines out))
    | none => .error (.unresolved "step.stdout")
  | .prevModified =>
    match ctx.prevStep with
    | some sc => .ok (.list sc.modifiedFiles)
    | none => .error (.unresolved "previous_step.modified_files")
  | .prevAdded =>
    match ctx.prevStep with
    | some sc => .ok (.list sc.addedFiles)
    | none => .error (.unresolved "previous_step.added_files")
  | .output n =>
    match lookupOutput ctx.outputs n with
    | some v => .ok (.str v)
    | none => .error (.unresolved ("outputs." ++ n))
  | .joinExpr e sep =>
    match evalExpr ctx e with
    | .error t => .error t
    | .ok (.list xs) => .ok (.str (String.intercalate sep xs))
    | .ok _ => .error (.unresolved "join: argument is not a sequence")
  | .eqExpr a b =>
    match evalExpr ctx a, evalExpr ctx b with
    | .error t, _ => .error t
    | .ok _, .error t => .error t
    | .ok va, .ok vb => .ok (.bool (va == vb))

/-- One fragment of a template: free text or an interpolated expression. -/
inductive Piece where
  | text (s : String)
  | hole (e : Expr)
deriving DecidableEq, Repr

abbrev Template := List Piece

/-- Render a template against the context. -/
def renderTemplate (ctx : EvalCtx) : Template → Except TemplateErr String
  | [] => .ok ""
  | .text s :: rest =>
    match renderTemplate ctx rest with
    | .error t => .error t
    | .ok r => .ok (s ++ r)
  | .hole e :: rest =>
    match evalExpr ctx e with
    | .error t => .error t
    | .ok v =>
      match renderTemplate ctx rest with
      | .error t => .error t
      | .ok r => .ok (valueToString v ++ r)

/-- Truthiness of an evaluated condition. -/
def isTruthy : Value → Bool
  | .bool b => b
  | .str s => !(s == "")
  | .list xs => !xs.isEmpty

/-! ## Steps, tasks and the step runner -/

/-- Modelled from the spec: one unit of executable work — a command
template, an optional skip-condition template and declared outputs. -/
structure Step where
  run : Template
  ifCond : Option Expr := none
  outputs : List (String × Template) := []
deriving DecidableEq, Repr

structure Repository where
  id : String
  name : String
  files : FS
deriving DecidableEq, Repr

/-- Modelled from the spec: the immutable description of one unit of work
(named `Task` in the source; `Task` is taken in Lean). -/
structure BTask where
  repo : Repository
  path : String
  steps : List Step
deriving DecidableEq, Repr

/-- Modelled from the spec: the error taxonomy of the engine. -/
inductive ExecError where
  | templateError (t : TemplateErr)
  | stepExecutionError (code : Nat) (stdout stderr : String)
  | timeoutError (boundMs : Nat)
deriving DecidableEq, Repr

/-- The user-visible message of an engine error; a timeout names the
configured bound in milliseconds. -/
def ExecError.message : ExecError → String
  | .templateError _ => "evaluating templates failed"
  | .stepExecutionError c _ _ => "run: exited with " ++ toString c
  | .timeoutError b =>
    "Timeout reached. Execution took longer than " ++ toString b ++ "ms."

/-- The per-task mutable state threaded through the step sequence. -/
structure RunState where
  fs : FS
  baseline : FS
  prevStep : Option StepCtx
  outputs : List (String × String)
  anyRan : Bool
deriving DecidableEq, Repr

/-- Record a global output, overwriting an earlier value of the same name. -/
def setOutput : List (String × String) → String → String →
    List (String × String)
  | [], n, v => [(n, v)]
  | kv :: rest, n, v =>
    if kv.1 == n then (n, v) :: rest else kv :: setOutput rest n v

/-- The evaluation context for a given run state. -/
def mkCtx (repoName : String) (st : RunState) (stdoutOpt : Option String) :
    EvalCtx :=
  ⟨repoName, st.prevStep, stdoutOpt, st.outputs⟩

/-- Render each declared output value and fold it into the outputs map. -/
def renderOutputs (ctx : EvalCtx) :
    List (String × Template) → List (String × String) →
    Except TemplateErr (List (String × String))
  | [], outs => .ok outs
  | (n, t) :: rest, outs =>
    match renderTemplate ctx t with
    | .error e => .error e
    | .ok v => renderOutputs ctx rest (setOutput outs n v)

/-- Evaluate a step's skip condition; a step without a condition is not
skipped. -/
def evalCond (repoName : String) (st : RunState) (s : Step) :
    Except TemplateErr Bool :=
  match s.ifCond with
  | none => .ok false
  | some e =>
    match evalExpr (mkCtx repoName st none) e with
    | .error t => .error t
    | .ok v => .ok (isTruthy v)

inductive StepRes where
  | ok (st : RunState)
  | err (e : ExecError)
  | diverge
deriving DecidableEq, Repr

/-- Modelled from the spec: run one step — evaluate the skip condition,
render the command, execute it, record changed files and declared
outputs.  The configured timeout is applied by `execStep` on top of this
timeout-independent core. -/
def execStepCore (repoName : String) (st : RunState) (s : Step) : StepRes :=
  match evalCond repoName st s with
  | .error t => .err (.templateError t)
  | .ok true => .ok st
  | .ok false =>
    match renderTemplate (mkCtx repoName st none) s.run with
    | .error t => .err (.templateError t)
    | .ok cmd =>
      match runCommand cmd st.fs with
      | .diverge => .diverge
      | .exited c out errOut => .err (.stepExecutionError c out errOut)
      | .ok out fs2 =>
        let sc : StepCtx :=
          ⟨out, addedFiles st.baseline fs2, modifiedFiles st.baseline fs2⟩
        match renderOutputs (mkCtx repoName { st with prevStep := some sc }
            (some out)) s.outputs st.outputs with
        | .error t => .err (.templateError t)
        | .ok outs2 => .ok ⟨fs2, fs2, some sc, outs2, true⟩

inductive StepsOutcome where
  | ok (st : RunState)
  | err (e : ExecError)
  | hang
deriving DecidableEq, Repr

/-- Modelled from the spec: a per-task execution timeout, when set,
cancels a command that never terminates and reports a timeout error
naming the elapsed bound; with no timeout configured such a command
hangs. -/
def execStep (timeoutMs : Option Nat) (repoName : String) (st : RunState)
    (s : Step) : StepsOutcome :=
  match execStepCore repoName st s with
  | .ok st2 => .ok st2
  | .err e => .err e
  | .diverge =>
    match timeoutMs with
    | some b => .err (.timeoutError b)
    | none => .hang

/-- Run a task's steps strictly in order; the first error terminates the
sequence. -/
def execSteps (timeoutMs : Option Nat) (repoName : String) (st : RunState) :
    List Step → StepsOutcome
  | [] => .ok st
  | s :: rest =>
    match execStep timeoutMs repoName st s with
    | .ok st2 => execSteps timeoutMs repoName st2 rest
    | .err e => .err e
    | .hang => .hang

/-! ## Workspaces, diffs and the executor -/

/-- Prepend the task's sub-path to a workspace-relative file name. -/
def withSubPath (path name : String) : String :=
  if path == "" then name else path ++ "/" ++ name

/-- Modelled from the spec: the archive fetched for a task holds exactly
the repository subtree under the task's sub-path, with names made
relative to it. -/
def subtreeFiles (repo : Repository) (path : String) : FS :=
  if path == "" then repo.files
  else
    repo.files.filterMap (fun kv =>
      if strStarts kv.1 (path ++ "/") then
        some (strDrop kv.1 (path.length + 1), kv.2)
      else none)

/-- One file's entry in a task's unified diff. -/
structure FileDiff where
  name : String
  oldContent : Option String
  newContent : Option String
deriving DecidableEq, Repr

/-- The per-file diff entries of a workspace, comparing the current files
to the pristine snapshot; names carry the task's sub-path. -/
def fileDiffs (path : String) (pristine current : FS) : List FileDiff :=
  (changedKeys pristine current).map (fun p =>
    ⟨withSubPath path p, FS.get pristine p, FS.get current p⟩)

/-- Render one file entry of the unified diff text. -/
def renderFileDiff (d : FileDiff) : String :=
  "--- " ++ (match d.oldContent with | none => "/dev/null" | some _ => d.name)
    ++ "\n+++ " ++ d.name ++ "\n"

/-- Render the unified multi-file diff text; no changes render to the
empty string. -/
def renderDiffs (ds : List FileDiff) : String :=
  ds.foldr (fun d acc => renderFileDiff d ++ acc) ""

/-- Modelled from the spec: each task owns an exclusive workspace
directory, keyed by the repository and the task's sub-path. -/
def wsDir (t : BTask) : String × String := (t.repo.id, t.path)

/-- The initial run state of a task: a fresh workspace holding the
subtree archive, which is also the pristine snapshot and the first
changed-files baseline. -/
def initState (t : BTask) : RunState :=
  ⟨subtreeFiles t.repo t.path, subtreeFiles t.repo t.path, none, [], false⟩

/-- Modelled from the spec: a task result carries the unified diff and
the final step execution context. -/
structure TaskResult where
  fileDiffs : List FileDiff
  diff : String
  final : RunState
deriving DecidableEq, Repr

inductive TaskOutcome where
  | ok (r : TaskResult)
  | errored (e : ExecError)
  | skippedAll
  | hang
deriving DecidableEq, Repr

/-- Modelled from the spec and the engine's test expectations: execute one
task — materialize the workspace, run the steps, then diff against the
pristine snapshot.  A task with steps, all of which were skipped by their
conditions, produces no result. -/
def execTask (timeoutMs : Option Nat) (t : BTask) : TaskOutcome :=
  match execSteps timeoutMs t.repo.name (initState t) t.steps with
  | .hang => .hang
  | .err e => .errored e
  | .ok st =>
    if !st.anyRan && !t.steps.isEmpty then .skippedAll
    else
      let ds := fileDiffs t.path (initState t).fs st.fs
      .ok ⟨ds, renderDiffs ds, st⟩

/-- The task-level error message surfaced by the executor. -/
def taskErrMessage (t : BTask) (e : ExecError) : String :=
  "execution in " ++ t.repo.name ++ " failed: " ++ e.message

/-- The aggregate outcome of `Executor.Start` / `Executor.Wait`. -/
structure ExecutorRun where
  results : List (BTask × TaskResult)
  firstErr : Option (BTask × ExecError)
  hung : Bool
deriving DecidableEq, Repr

/-- Modelled from the spec: the executor runs every task independently
and aggregates per-task results, reporting the first task error. -/
def executeAll (timeoutMs : Option Nat) (tasks : List BTask) : ExecutorRun :=
  { results := tasks.filterMap (fun t =>
      match execTask timeoutMs t with
      | .ok r => some (t, r)
      | _ => none)
    firstErr := (tasks.filterMap (fun t =>
      match execTask timeoutMs t with
      | .errored e => some (t, e)
      | _ => none)).head?
    hung := tasks.any (fun t => execTask timeoutMs t == .hang) }

/-! ## Scout advise subsystem

Embedded from `internal/scout/advise/k8s.go`.  Go `float64` usage values
are modelled by a tagged type that keeps the comparison behaviour of
floating point relevant to `checkUsage`: NaN compares false under every
order comparison, and the infinities compare as expected. -/

inductive GoFloat where
  | nan
  | neginf
  | finite (q : ℚ)
  | posinf
deriving DecidableEq, Repr

/-- The Go comparison `usage >= c` on the float model. -/
def fge (a : GoFloat) (c : ℚ) : Bool :=
  match a with
  | .nan => false
  | .neginf => false
  | .posinf => true
  | .finite q => decide (c ≤ q)

/-- The Go comparison `usage < c` on the float model. -/
def flt (a : GoFloat) (c : ℚ) : Bool :=
  match a with
  | .nan => false
  | .neginf => true
  | .posinf => false
  | .finite q => decide (q < c)

/-- An advice message; the constructor is the format constant chosen by
`checkUsage` (`OVER_100`, `OVER_80`, `OVER_40`, `UNDER_40`), applied to
the arguments the source passes to `fmt.Sprintf`. -/
inductive AdviceMsg where
  | msgOver100 (container resourceType : String) (usage : GoFloat)
  | msgOver80 (container resourceType : String) (usage : GoFloat)
  | msgOver40 (container resourceType : String) (usage : GoFloat)
  | msgUnder40 (container resourceType : String) (usage : GoFloat)
deriving DecidableEq, Repr

/-- Embedded from `checkUsage` in `k8s.go`: a switch over the usage value;
the `pod` parameter is accepted but, as in the source, not used in any
message. -/
def checkUsage (usage : GoFloat) (resourceType container pod : String) :
    AdviceMsg :=
  if fge usage 100 then .msgOver100 container resourceType usage
  else if fge usage 80 && flt usage 100 then .msgOver80 container resourceType usage
  else if fge usage 40 && flt usage 80 then .msgOver40 container resourceType usage
  else .msgUnder40 container resourceType usage

/-- Embedded from `scout.UsageStats` as used by `Advise`: per-container
usage percentages; `storage` records whether `metrics.Storage != nil`. -/
structure UsageStats where
  containerName : String
  cpuUsage : GoFloat
  memoryUsage : GoFloat
  storage : Bool
  storageUsage : GoFloat
deriving DecidableEq, Repr

/-- Embedded from the loop body of `Advise`: the advice generated for one
container — CPU, memory, and storage when present. -/
def containerAdvice (podName : String) (m : UsageStats) : List AdviceMsg :=
  [checkUsage m.cpuUsage "CPU" m.containerName podName,
   checkUsage m.memoryUsage "memory" m.containerName podName]
  ++ (if m.storage then
        [checkUsage m.storageUsage "storage" m.containerName podName]
      else [])

/-- Embedded from the `Advise` loop: `advice` accumulates across the
per-container loop, and the whole accumulated slice is emitted (printed
or written to the output file) on every iteration.  The result is the
full sequence of emitted messages. -/
def emitRec (podName : String) (advice : List AdviceMsg) :
    List UsageStats → List AdviceMsg
  | [] => []
  | m :: rest =>
    let advice2 := advice ++ containerAdvice podName m
    advice2 ++ emitRec podName advice2 rest

/-- All messages emitted by one `Advise` call for the given containers. -/
def adviseEmitted (podName : String) (ms : List UsageStats) : List AdviceMsg :=
  emitRec podName [] ms

/-- A failure mode of the file operations performed by `outputToFile`:
opening the file, writing the pod name, or writing the advice line at a
given index. -/
inductive FileFailure where
  | openFail
  | podNameFail
  | adviceFail (k : Nat)
deriving DecidableEq, Repr

/-- The abstracted file system behaviour seen by `outputToFile`:
`none` means every operation succeeds. -/
abbrev FileEnv := Option FileFailure

/-- Embedded from `outputToFile` in `k8s.go`: open the output file in
append mode, write the pod name line, then each advice line, returning
the first wrapped error. -/
def outputToFile (env : FileEnv) (outputPath podName : String)
    (advice : List AdviceMsg) : Except String Unit :=
  match env with
  | some .openFail => .error "failed to open file"
  | some .podNameFail => .error "failed to write pod name to file"
  | some (.adviceFail k) =>
    if k < advice.length then .error "failed to write container advice to file"
    else .ok ()
  | none =>
    let _ := outputPath
    let _ := podName
    .ok ()

/-- Embedded from the `Advise` loop with `cfg.Output` non-empty: each
iteration calls `outputToFile` on the accumulated advice and ignores the
returned error, exactly as the source does on its line 90. -/
def adviseLoop (env : FileEnv) (output podName : String)
    (advice : List AdviceMsg) : List UsageStats → List AdviceMsg
  | [] => advice
  | m :: rest =>
    let advice2 := advice ++ containerAdvice podName m
    let fileRes : Except String Unit :=
      if output == "" then .ok ()
      else outputToFile env output podName advice2
    let _ := fileRes
    adviseLoop env output podName advice2 rest

/-- Embedded from `Advise` in `k8s.go`: fetch the usage metrics
(abstracted as an `Except` input), run the per-container loop, and
return `nil`; the per-iteration file-output errors are discarded by the
loop and never propagate. -/
def Advise (env : FileEnv) (output podName : String)
    (metricsResult : Except String (List UsageStats)) : Except String Unit :=
  match metricsResult with
  | .error e => .error ("could not get usage metrics: " ++ e)
  | .ok ms =>
    let _ := adviseLoop env output podName [] ms
    .ok ()

/-! ## Concrete fixtures

Repositories, steps and tasks taken from the engine's test file. -/

def repo1 : Repository :=
  ⟨"repo-1", "github.com/sourcegraph/src-cli",
   [("README.md", "# Welcome to the README\n"), ("main.go", "package main")]⟩

/-- The step of the timeout testcase: a command that never terminates. -/
def stepLoop : Step :=
  { run := [.text "while true; do echo \"zZzzZ\" && sleep 0.05; done"] }

def c1task : BTask := ⟨repo1, "", [stepLoop]⟩

/-- A sibling task whose single step runs `true` and changes nothing. -/
def c1sib : BTask := ⟨repo1, "", [{ run := [.text "true"] }]⟩

def c1sibRes : TaskResult :=
  ⟨[], "", ⟨repo1.files, repo1.files, some ⟨"", [], []⟩, [], true⟩⟩

def stepEcho : Step :=
  { run := [.text "echo \"hello.txt\""],
    outputs := [("myOutput", [.hole .stepStdout])] }

def stepTouchOutput : Step :=
  { run := [.text "touch output-", .hole (.output "myOutput")] }

def c2task : BTask := ⟨repo1, "", [stepEcho, stepTouchOutput]⟩

def stepFmt : Step := { run := [.text "go fmt main.go"] }

def stepTouchModified : Step :=
  { run := [.text "touch modified-", .hole (.joinExpr .prevModified " "),
            .text ".md"] }

def c3task : BTask := ⟨repo1, "", [stepFmt, stepTouchModified]⟩

/-- The conditioned step of the skip testcase. -/
def stepCondTouch : Step :=
  { run := [.text "touch hello.txt"],
    ifCond := some (.eqExpr .repoName (.lit "repoB")) }

def repoA : Repository := ⟨"repo-a", "repoA", [("README.md", "x")]⟩

def repoB : Repository := ⟨"repo-b", "repoB", [("README.md", "x")]⟩

def c4taskA : BTask := ⟨repoA, "", [stepCondTouch]⟩

def c4taskB : BTask := ⟨repoB, "", [stepCondTouch]⟩

def repoSub : Repository :=
  ⟨"repo-2", "github.com/sourcegraph/sourcegraph",
   [("README.md", "top"), ("sub/dir/README.md", "inner"),
    ("sub/dir/main.go", "package sub")]⟩

def cSubTask : BTask := ⟨repoSub, "sub/dir", [stepFmt]⟩

def cSubRes : TaskResult :=
  ⟨[⟨"sub/dir/main.go", some "package sub", some "package sub\n"⟩],
   "--- sub/dir/main.go\n+++ sub/dir/main.go\n",
   ⟨[("README.md", "inner"), ("main.go", "package sub\n")],
    [("README.md", "inner"), ("main.go", "package sub\n")],
    some ⟨"", [], ["main.go"]⟩, [], true⟩⟩

def c6task : BTask := ⟨repo1, "", []⟩

def stepFalse : Step := { run := [.text "false"] }

def c7task : BTask := ⟨repo1, "", [stepFalse, stepFmt]⟩

def statsA : UsageStats := ⟨"container-a", .finite 50, .finite 50, false, .nan⟩

def statsB : UsageStats := ⟨"container-b", .finite 90, .finite 50, false, .nan⟩

def msgA : AdviceMsg := .msgOver40 "container-a" "CPU" (.finite 50)

/-! ## Observation helpers on task outcomes -/

/-- The content of a file in the final workspace of a successful task. -/
def taskFileContent (o : TaskOutcome) (p : String) : Option String :=
  match o with
  | .ok r => FS.get r.final.fs p
  | _ => none

/-- The recorded value of a global output of a successful task. -/
def taskOutputValue (o : TaskOutcome) (n : String) : Option String :=
  match o with
  | .ok r => lookupOutput r.final.outputs n
  | _ => none

/-- The names of the files a task's diff reports as changed; a task whose
steps were all skipped changed nothing. -/
def taskChangedNames (o : TaskOutcome) : Option (List String) :=
  match o with
  | .ok r => some (r.fileDiffs.map (fun d => d.name))
  | .skippedAll => some []
  | _ => none

/-! ## Helper lemmas -/

theorem strAppendEmpty (s : String) : s ++ "" = s := by
  cases s with
  | mk d => exact congrArg String.mk (List.append_nil d)

theorem lookupOutput_setOutput_self (outs : List (String × String))
    (n v : String) : lookupOutput (setOutput outs n v) n = some v := by
  induction outs with
  | nil => simp [setOutput, lookupOutput, List.find?]
  | cons kv rest ih =>
    by_cases hk : kv.1 == n
    · simp [setOutput, hk, lookupOutput, List.find?]
    · simp only [setOutput, hk, Bool.false_eq_true, if_false]
      simpa [lookupOutput, List.find?, hk] using ih

theorem fileDiffs_self (path : String) (fs : FS) : fileDiffs path fs fs = [] := by
  have h : changedKeys fs fs = [] := by
    simp [changedKeys, List.filter_eq_nil_iff]
  simp [fileDiffs, h]

theorem execStep_of_core_ok (tm : Option Nat) (repoName : String)
    (st : RunState) (s : Step) (st2 : RunState)
    (h : execStepCore repoName st s = .ok st2) :
    execStep tm repoName st s = .ok st2 := by
  simp [execStep, h]

theorem execStep_of_core_err (tm : Option Nat) (repoName : String)
    (st : RunState) (s : Step) (e : ExecError)
    (h : execStepCore repoName st s = .err e) :
    execStep tm repoName st s = .err e := by
  simp [execStep, h]

/-- A step sequence that hangs with no timeout configured fails with a
timeout error naming the bound once a timeout is configured: the
execution of every step before the non-terminating command is unchanged
by the timeout option. -/
theorem execSteps_timeout_of_hang (b : Nat) (repoName : String) :
    ∀ (steps : List Step) (st : RunState),
      execSteps none repoName st steps = .hang →
      execSteps (some b) repoName st steps = .err (.timeoutError b) := by
  intro steps
  induction steps with
  | nil => intro st h; simp [execSteps] at h
  | cons s rest ih =>
    intro st h
    cases hc : execStepCore repoName st s with
    | ok st2 =>
      simp only [execSteps, execStep, hc] at h ⊢
      exact ih st2 h
    | err e => simp [execSteps, execStep, hc] at h
    | diverge => simp [execSteps, execStep, hc]

/-- Steps appended after a failing step sequence never run: the outcome
is the first error unchanged. -/
theorem execSteps_append_err (tm : Option Nat) (repoName : String) :
    ∀ (s1 s2 : List Step) (st : RunState) (e : ExecError),
      execSteps tm repoName st s1 = .err e →
      execSteps tm repoName st (s1 ++ s2) = .err e := by
  intro s1
  induction s1 with
  | nil => intro s2 st e h; simp [execSteps] at h
  | cons s rest ih =>
    intro s2 st e h
    cases hc : execStep tm repoName st s with
    | ok st2 =>
      simp only [execSteps, hc] at h
      simpa [execSteps, hc] using ih s2 st2 e h
    | err e2 =>
      simp only [execSteps, hc] at h ⊢
      exact h
    | hang => simp [execSteps, hc] at h

/-- Every file entry of a task diff carries the task's sub-path. -/
theorem fileDiffs_name_shape (path : String) (a b : FS) (d : FileDiff)
    (h : d ∈ fileDiffs path a b) : ∃ base, d.name = withSubPath path base := by
  rcases List.mem_map.mp h with ⟨p, _, hp⟩
  exact ⟨p, by rw [← hp]⟩

/-- Results reported by the executor are exactly the standalone task
executions. -/
theorem executeAll_results_sound (tm : Option Nat) (tasks : List BTask)
    (t : BTask) (r : TaskResult)
    (h : (t, r) ∈ (executeAll tm tasks).results) : execTask tm t = .ok r := by
  rcases List.mem_filterMap.mp h with ⟨a, _, ha⟩
  cases he : execTask tm a with
  | ok r2 =>
    rw [he] at ha
    simp only [Option.some.injEq, Prod.mk.injEq] at ha
    rw [← ha.1, he, ha.2]
  | errored e => rw [he] at ha; simp at ha
  | skippedAll => rw [he] at ha; simp at ha
  | hang => rw [he] at ha; simp at ha

/-- When a message never occurs in any remaining container's advice, each
emitted snapshot contributes exactly the occurrences already accumulated. -/
theorem emitRec_count_zero (x : AdviceMsg) (pod : String) :
    ∀ (ms : List UsageStats) (acc : List AdviceMsg),
      (∀ m ∈ ms, (containerAdvice pod m).count x = 0) →
      (emitRec pod acc ms).count x = ms.length * acc.count x := by
  intro ms
  induction ms with
  | nil => intro acc _; simp [emitRec]
  | cons m rest ih =>
    intro acc h
    have hm : (containerAdvice pod m).count x = 0 := h m (by simp)
    have hr : ∀ m2 ∈ rest, (containerAdvice pod m2).count x = 0 :=
      fun m2 hm2 => h m2 (by simp [hm2])
    have := ih (acc ++ containerAdvice pod m) hr
    simp only [emitRec, List.count_append] at this ⊢
    rw [this, hm]
    simp [List.length_cons]
    ring

/-- Counting a message that occurs exactly once, in the advice of the
container at position `pre.length`: it is re-emitted by that iteration
and every later one. -/
theorem emitRec_count_single (x : AdviceMsg) (pod : String) :
    ∀ (pre : List UsageStats) (m : UsageStats) (post : List UsageStats)
      (acc : List AdviceMsg),
      acc.count x = 0 →
      (∀ m2 ∈ pre, (containerAdvice pod m2).count x = 0) →
      (containerAdvice pod m).count x = 1 →
      (∀ m2 ∈ post, (containerAdvice pod m2).count x = 0) →
      (emitRec pod acc (pre ++ m :: post)).count x = post.length + 1 := by
  intro pre
  induction pre with
  | nil =>
    intro m post acc hacc _ hm hpost
    have hz := emitRec_count_zero x pod post (acc ++ containerAdvice pod m) hpost
    simp only [List.nil_append, emitRec, List.count_append] at hz ⊢
    rw [hz, hacc, hm]
    ring
  | cons p pre2 ih =>
    intro m post acc hacc hpre hm hpost
    have hp : (containerAdvice pod p).count x = 0 := hpre p (by simp)
    have hpre2 : ∀ m2 ∈ pre2, (containerAdvice pod m2).count x = 0 :=
      fun m2 hm2 => hpre m2 (by simp [hm2])
    have hacc2 : (acc ++ containerAdvice pod p).count x = 0 := by
      simp [List.count_append, hacc, hp]
    have := ih m post (acc ++ containerAdvice pod p) hacc2 hpre2 hm hpost
    simp only [List.cons_append, emitRec, List.count_append]
    rw [hacc, hp]
    simpa using this

/-! ## Claim theorems -/

/-- C1: for every task whose step command never terminates (its step
sequence hangs when no timeout is configured), configuring a per-task
execution timeout makes that task fail with a timeout error whose
message states the configured bound, while sibling tasks of the same
executor run complete normally. -/
theorem c1_timeout_fails_task_siblings_ok (t : BTask) (b : Nat)
    (tasks : List BTask) (sib : BTask) (r : TaskResult)
    (hhang : execSteps none t.repo.name (initState t) t.steps = .hang)
    (hsib : sib ∈ tasks) (hsibOk : execTask (some b) sib = .ok r) :
    execTask (some b) t = .errored (.timeoutError b) ∧
    (ExecError.timeoutError b).message =
      "Timeout reached. Execution took longer than " ++ toString b ++ "ms." ∧
    (sib, r) ∈ (executeAll (some b) tasks).results := by
  refine ⟨?_, rfl, ?_⟩
  · have h := execSteps_timeout_of_hang b t.repo.name t.steps (initState t) hhang
    simp [execTask, h]
  · exact List.mem_filterMap.mpr ⟨sib, hsib, by rw [hsibOk]⟩

/-- C1 witness: the timeout testcase — a `while true` loop under a 100ms
bound fails with the exact message of the test expectation, and the
sibling task's result is reported. -/
theorem c1_witness :
    (execSteps none c1task.repo.name (initState c1task) c1task.steps =
      .hang ∧
     c1sib ∈ [c1task, c1sib] ∧
     execTask (some 100) c1sib = .ok c1sibRes) ∧
    (execTask (some 100) c1task = .errored (.timeoutError 100) ∧
     (ExecError.timeoutError 100).message =
       "Timeout reached. Execution took longer than " ++ toString 100 ++ "ms." ∧
     (c1sib, c1sibRes) ∈ (executeAll (some 100) [c1task, c1sib]).results) :=
  ⟨⟨by decide, by decide, by decide⟩,
   c1_timeout_fails_task_siblings_ok c1task 100 [c1task, c1sib] c1sib c1sibRes
     (by decide) (by decide) (by decide)⟩

/-- C2: a step output declared as the `step.stdout` template records
exactly the command's captured standard output, modulo trailing newline
normalization; concretely, after `echo "hello.txt"` the recorded output
is `hello.txt` and the later `touch output-` template produces the file
`output-hello.txt`. -/
theorem c2_stdout_output_capture (tm : Option Nat) (repoName : String)
    (st : RunState) (s : Step) (name cmd out : String) (fs2 : FS)
    (houts : s.outputs = [(name, [Piece.hole Expr.stepStdout])])
    (hcond : evalCond repoName st s = .ok false)
    (hrun : renderTemplate (mkCtx repoName st none) s.run = .ok cmd)
    (hcmd : runCommand cmd st.fs = .ok out fs2) :
    (∃ st2, execStep tm repoName st s = .ok st2 ∧
       lookupOutput st2.outputs name = some (trimEndNewlines out)) ∧
    taskFileContent (execTask none c2task) "output-hello.txt" = some "" ∧
    taskOutputValue (execTask none c2task) "myOutput" = some "hello.txt" := by
  refine ⟨?_, by decide, by decide⟩
  have hcore : execStepCore repoName st s =
      .ok ⟨fs2, fs2,
           some ⟨out, addedFiles st.baseline fs2, modifiedFiles st.baseline fs2⟩,
           setOutput st.outputs name (trimEndNewlines out), true⟩ := by
    simp only [execStepCore, hcond, hrun, hcmd, houts]
    simp [renderOutputs, renderTemplate, evalExpr, mkCtx, valueToString]
  refine ⟨_, execStep_of_core_ok tm repoName st s _ hcore, ?_⟩
  rw [lookupOutput_setOutput_self]

/-- C2 witness: the general statement applied to the `echo "hello.txt"`
step of the templated-steps testcase. -/
theorem c2_witness :
    (stepEcho.outputs = [("myOutput", [Piece.hole Expr.stepStdout])] ∧
     evalCond "github.com/sourcegraph/src-cli" (initState c2task) stepEcho =
       .ok false ∧
     runCommand "echo \"hello.txt\"" (initState c2task).fs =
       .ok "hello.txt\n" repo1.files) ∧
    ((∃ st2, execStep none "github.com/sourcegraph/src-cli"
         (initState c2task) stepEcho = .ok st2 ∧
       lookupOutput st2.outputs "myOutput" =
         some (trimEndNewlines "hello.txt\n")) ∧
     taskFileContent (execTask none c2task) "output-hello.txt" = some "" ∧
     taskOutputValue (execTask none c2task) "myOutput" = some "hello.txt") :=
  ⟨⟨by decide, by decide, by decide⟩,
   c2_stdout_output_capture none "github.com/sourcegraph/src-cli"
     (initState c2task) stepEcho "myOutput" "echo \"hello.txt\""
     "hello.txt\n" repo1.files (by decide) (by decide) (by decide) (by decide)⟩

/-- C3: after a step runs, the next step's context resolves
`previous_step.modified_files` and `previous_step.added_files` to exactly
the file sets that step modified and added since the previous baseline;
concretely, after `go fmt main.go` the template
`touch modified-(join previous_step.modified_files " ").md` creates the
file `modified-main.go.md`. -/
theorem c3_prev_step_modified_files (tm : Option Nat) (repoName : String)
    (st : RunState) (s : Step) (cmd out : String) (fs2 : FS) (st2 : RunState)
    (hcond : evalCond repoName st s = .ok false)
    (hrun : renderTemplate (mkCtx repoName st none) s.run = .ok cmd)
    (hcmd : runCommand cmd st.fs = .ok out fs2)
    (hstep : execStep tm repoName st s = .ok st2) :
    (evalExpr (mkCtx repoName st2 none) .prevModified =
       .ok (.list (modifiedFiles st.baseline fs2)) ∧
     evalExpr (mkCtx repoName st2 none) .prevAdded =
       .ok (.list (addedFiles st.baseline fs2))) ∧
    taskFileContent (execTask none c3task) "modified-main.go.md" = some "" := by
  refine ⟨?_, by decide⟩
  cases hro : renderOutputs (mkCtx repoName
      { st with prevStep := some (StepCtx.mk out (addedFiles st.baseline fs2)
          (modifiedFiles st.baseline fs2)) }
      (some out)) s.outputs st.outputs with
  | error t =>
    have herr : execStep tm repoName st s = .err (.templateError t) := by
      apply execStep_of_core_err
      simp [execStepCore, hcond, hrun, hcmd, hro]
    rw [herr] at hstep
    exact absurd hstep (by simp)
  | ok outs2 =>
    have hcore : execStepCore repoName st s =
        .ok ⟨fs2, fs2,
             some ⟨out, addedFiles st.baseline fs2, modifiedFiles st.baseline fs2⟩,
             outs2, true⟩ := by
      simp [execStepCore, hcond, hrun, hcmd, hro]
    have hok := execStep_of_core_ok tm repoName st s _ hcore
    rw [hok] at hstep
    injection hstep with h2
    rw [← h2]
    exact ⟨rfl, rfl⟩

/-- The workspace files after `go fmt main.go` has run in `c3task`. -/
def c3fmtFS : FS := FS.set repo1.files "main.go" "package main\n"

/-- The run state after the first step of `c3task`. -/
def c3midState : RunState :=
  ⟨c3fmtFS, c3fmtFS, some ⟨"", [], ["main.go"]⟩, [], true⟩

/-- C3 witness: the general statement applied to the `go fmt main.go`
step of the templated-steps testcase. -/
theorem c3_witness :
    (evalCond "github.com/sourcegraph/src-cli" (initState c3task) stepFmt =
       .ok false ∧
     runCommand "go fmt main.go" (initState c3task).fs = .ok "" c3fmtFS ∧
     execStep none "github.com/sourcegraph/src-cli" (initState c3task)
       stepFmt = .ok c3midState) ∧
    ((evalExpr (mkCtx "github.com/sourcegraph/src-cli" c3midState none)
         .prevModified =
       .ok (.list (modifiedFiles (initState c3task).baseline c3fmtFS)) ∧
      evalExpr (mkCtx "github.com/sourcegraph/src-cli" c3midState none)
         .prevAdded =
       .ok (.list (addedFiles (initState c3task).baseline c3fmtFS))) ∧
     taskFileContent (execTask none c3task) "modified-main.go.md" = some "") :=
  ⟨⟨by decide, by decide, by decide⟩,
   c3_prev_step_modified_files none "github.com/sourcegraph/src-cli"
     (initState c3task) stepFmt "go fmt main.go" "" c3fmtFS c3midState
     (by decide) (by decide) (by decide) (by decide)⟩

/-- C4 counterexample: the condition `eq repository.name "repoB"` on a
task over `repoA` evaluates false, so the step is executed and the task
changes one file — not zero as the claim's scenario states. -/
theorem c4_counterexample :
    evalCond "repoA" (initState c4taskA) stepCondTouch = .ok false ∧
    taskChangedNames (execTask none c4taskA) = some ["hello.txt"] ∧
    some ["hello.txt"] ≠ (some ([] : List String)) := by
  refine ⟨by decide, by decide, by decide⟩

/-- C4 amended: a step whose skip condition evaluates true is not
executed and records nothing — the run state is returned unchanged; and
the condition `eq repository.name "repoB"` yields zero changed files for
a task over `repoB` (where it evaluates true and the step is skipped),
while over `repoA` the step runs. -/
theorem c4_skip_condition (tm : Option Nat) (repoName : String)
    (st : RunState) (s : Step)
    (hcond : evalCond repoName st s = .ok true) :
    execStep tm repoName st s = .ok st ∧
    execTask none c4taskB = .skippedAll ∧
    taskChangedNames (execTask none c4taskB) = some [] := by
  refine ⟨?_, by decide, by decide⟩
  apply execStep_of_core_ok
  simp [execStepCore, hcond]

/-- C4 witness: the amended statement applied to the conditioned step on
the `repoB` task, where the condition evaluates true. -/
theorem c4_witness :
    evalCond "repoB" (initState c4taskB) stepCondTouch = .ok true ∧
    (execStep none "repoB" (initState c4taskB) stepCondTouch =
       .ok (initState c4taskB) ∧
     execTask none c4taskB = .skippedAll ∧
     taskChangedNames (execTask none c4taskB) = some []) :=
  ⟨by decide,
   c4_skip_condition none "repoB" (initState c4taskB) stepCondTouch (by decide)⟩

/-- C5: tasks with different sub-paths own distinct workspace
directories; every file entry in a task's diff lies under that task's
sub-path; and each result the executor reports for a task is exactly
that task's standalone execution, so diffs are per-task. -/
theorem c5_subpath_isolation :
    (∀ t u : BTask, t.path ≠ u.path → wsDir t ≠ wsDir u) ∧
    (∀ (tm : Option Nat) (t : BTask) (r : TaskResult),
       execTask tm t = .ok r → t.path ≠ "" →
       ∀ d ∈ r.fileDiffs, ∃ base, d.name = t.path ++ "/" ++ base) ∧
    (∀ (tm : Option Nat) (tasks : List BTask) (t : BTask) (r : TaskResult),
       (t, r) ∈ (executeAll tm tasks).results → execTask tm t = .ok r) := by
  refine ⟨?_, ?_, ?_⟩
  · intro t u hp
    simp [wsDir, hp]
  · intro tm t r hr hp d hd
    have hdiffs : r.fileDiffs = fileDiffs t.path (initState t).fs
        (match execTask tm t with
         | .ok r2 => r2.final.fs
         | _ => (initState t).fs) := by
      revert hr
      cases he : execSteps tm t.repo.name (initState t) t.steps with
      | hang => intro hr; simp [execTask, he] at hr
      | err e => intro hr; simp [execTask, he] at hr
      | ok st =>
        intro hr
        simp only [execTask, he] at hr ⊢
        cases hif : (!st.anyRan && !t.steps.isEmpty) with
        | true => rw [hif] at hr; simp at hr
        | false =>
          rw [hif] at hr
          simp only [Bool.false_eq_true, if_false] at hr ⊢
          injection hr with h2
          rw [← h2]
    rw [hdiffs] at hd
    rcases fileDiffs_name_shape t.path _ _ d hd with ⟨base, hb⟩
    refine ⟨base, ?_⟩
    rw [hb, withSubPath]
    have : (t.path == "") = false := by
      cases hq : t.path == "" with
      | true => exact absurd (by simpa using hq) hp
      | false => rfl
    rw [this]
    simp
  · intro tm tasks t r h
    exact executeAll_results_sound tm tasks t r h

/-- C5 witness: the two sub-path testcase tasks over the same repository
have distinct workspaces, and the `sub/dir` task's diff entry lies under
`sub/dir`. -/
theorem c5_witness :
    wsDir (BTask.mk repoSub "" [stepFmt]) ≠ wsDir cSubTask ∧
    (∃ base, (FileDiff.mk "sub/dir/main.go" (some "package sub")
        (some "package sub\n")).name = "sub/dir" ++ "/" ++ base) ∧
    execTask none cSubTask = .ok cSubRes :=
  ⟨c5_subpath_isolation.1 (BTask.mk repoSub "" [stepFmt]) cSubTask (by decide),
   c5_subpath_isolation.2.1 none cSubTask cSubRes (by decide) (by decide)
     (FileDiff.mk "sub/dir/main.go" (some "package sub")
       (some "package sub\n")) (by decide),
   c5_subpath_isolation.2.2 none [cSubTask] cSubTask cSubRes (by decide)⟩

/-- C6: a task with zero steps succeeds and its diff is the empty
string. -/
theorem c6_zero_steps_empty_diff (tm : Option Nat) (t : BTask)
    (h : t.steps = []) :
    execTask tm t = .ok ⟨[], "", initState t⟩ := by
  have hds : fileDiffs t.path (initState t).fs (initState t).fs = [] :=
    fileDiffs_self t.path (initState t).fs
  simp [execTask, h, execSteps, initState, fileDiffs_self, renderDiffs]

/-- C6 witness: the zero-step task over the test repository succeeds
with an empty diff. -/
theorem c6_witness :
    c6task.steps = [] ∧
    execTask none c6task = .ok ⟨[], "", initState c6task⟩ :=
  ⟨by decide, c6_zero_steps_empty_diff none c6task (by decide)⟩

/-- C7: the first error in a task's step sequence terminates the task —
appending further steps after a failing sequence leaves the outcome
unchanged —, a command exiting non-zero fails the step with a step
execution error carrying its exit code and output, and a step-sequence
error is surfaced as the task's result, never swallowed. -/
theorem c7_first_error_terminates :
    (∀ (tm : Option Nat) (repoName : String) (st : RunState)
       (s1 s2 : List Step) (e : ExecError),
       execSteps tm repoName st s1 = .err e →
       execSteps tm repoName st (s1 ++ s2) = .err e) ∧
    (∀ (tm : Option Nat) (repoName : String) (st : RunState) (s : Step)
       (cmd : String) (c : Nat) (o serr : String),
       evalCond repoName st s = .ok false →
       renderTemplate (mkCtx repoName st none) s.run = .ok cmd →
       runCommand cmd st.fs = .exited c o serr →
       execStep tm repoName st s = .err (.stepExecutionError c o serr)) ∧
    (∀ (tm : Option Nat) (t : BTask) (e : ExecError),
       execSteps tm t.repo.name (initState t) t.steps = .err e →
       execTask tm t = .errored e) := by
  refine ⟨?_, ?_, ?_⟩
  · intro tm repoName st s1 s2 e h
    exact execSteps_append_err tm repoName s1 s2 st e h
  · intro tm repoName st s cmd c o serr hcond hrun hcmd
    apply execStep_of_core_err
    simp [execStepCore, hcond, hrun, hcmd]
  · intro tm t e h
    simp [execTask, h]

/-- C7 witness: the `false` step fails `c7task` with a step execution
error of exit code 1, the remaining `go fmt` step never changes the
outcome, and the executor surfaces the error as the task's result. -/
theorem c7_witness :
    (execSteps none c7task.repo.name (initState c7task) [stepFalse] =
       .err (.stepExecutionError 1 "" "") ∧
     evalCond c7task.repo.name (initState c7task) stepFalse = .ok false ∧
     runCommand "false" (initState c7task).fs = .exited 1 "" "") ∧
    (execSteps none c7task.repo.name (initState c7task)
       ([stepFalse] ++ [stepFmt]) = .err (.stepExecutionError 1 "" "") ∧
     execStep none c7task.repo.name (initState c7task) stepFalse =
       .err (.stepExecutionError 1 "" "") ∧
     execTask none c7task = .errored (.stepExecutionError 1 "" "")) :=
  ⟨⟨by decide, by decide, by decide⟩,
   c7_first_error_terminates.1 none c7task.repo.name (initState c7task)
     [stepFalse] [stepFmt] (.stepExecutionError 1 "" "") (by decide),
   c7_first_error_terminates.2.1 none c7task.repo.name (initState c7task)
     stepFalse "false" 1 "" "" (by decide) (by decide) (by decide),
   c7_first_error_terminates.2.2 none c7task (.stepExecutionError 1 "" "")
     (by decide)⟩

/-- C8: `checkUsage` is total and its threshold branches partition all
usage values — the over-100 form is returned exactly when
`usage >= 100`, the over-80 form exactly when `80 <= usage < 100`, the
over-40 form exactly when `40 <= usage < 80`, and the under-40 default
otherwise, which includes every value below 40, negative values, and
NaN, for which each comparison is false. -/
theorem c8_checkUsage_partition (u : GoFloat) (rt c p : String) :
    ((checkUsage u rt c p = .msgOver100 c rt u) ↔ fge u 100 = true) ∧
    ((checkUsage u rt c p = .msgOver80 c rt u) ↔
       (fge u 80 = true ∧ flt u 100 = true)) ∧
    ((checkUsage u rt c p = .msgOver40 c rt u) ↔
       (fge u 40 = true ∧ flt u 80 = true)) ∧
    ((checkUsage u rt c p = .msgUnder40 c rt u) ↔ fge u 40 = false) := by
  cases u with
  | nan => simp [checkUsage, fge, flt]
  | neginf => simp [checkUsage, fge, flt]
  | posinf => simp [checkUsage, fge, flt]
  | finite q =>
    simp only [checkUsage, fge, flt]
    split_ifs with h1 h2 h3 <;> simp_all <;>
      first
      | linarith
      | (constructor <;> (try intro h) <;> linarith)

/-- C9: advice accumulates across the per-container loop of `Advise` and
the whole slice is emitted inside that loop, so a message produced once
by the container at position `pre.length` (and by no other container) is
emitted once per remaining iteration: `n - i` times for `n` containers
and 0-based index `i`, i.e. `n - i + 1` times for 1-based positions. -/
theorem c9_advice_accumulates_and_repeats (pod : String)
    (pre post : List UsageStats) (m : UsageStats) (x : AdviceMsg)
    (hm : (containerAdvice pod m).count x = 1)
    (hpre : ∀ m2 ∈ pre, (containerAdvice pod m2).count x = 0)
    (hpost : ∀ m2 ∈ post, (containerAdvice pod m2).count x = 0) :
    (adviseEmitted pod (pre ++ m :: post)).count x =
      (pre ++ m :: post).length - pre.length := by
  have h := emitRec_count_single x pod pre m post [] (by simp) hpre hm hpost
  rw [adviseEmitted, h]
  simp [List.length_append]

/-- C9 witness: with two containers, the first container's CPU advice is
emitted twice — once with the first container's output and again with
the second's. -/
theorem c9_witness :
    ((containerAdvice "pod-1" statsA).count msgA = 1 ∧
     (containerAdvice "pod-1" statsB).count msgA = 0) ∧
    (adviseEmitted "pod-1" ([] ++ statsA :: [statsB])).count msgA =
      ([] ++ statsA :: [statsB]).length - List.length ([] : List UsageStats) :=
  ⟨⟨by decide, by decide⟩,
   c9_advice_accumulates_and_repeats "pod-1" [] [statsB] statsA msgA
     (by decide) (by decide) (by decide)⟩

/-- C10: when the output path is non-empty, `Advise` discards the error
value `outputToFile` returns — for every file failure (open, pod-name
write, or advice write), `Advise` still returns success, so the error
never propagates to the caller. -/
theorem c10_outputToFile_error_discarded (env : FileEnv)
    (output podName : String) (ms : List UsageStats)
    (advice : List AdviceMsg) (e : String)
    (hout : output ≠ "")
    (hfail : outputToFile env output podName advice = .error e) :
    Advise env output podName (.ok ms) = .ok () := by
  simp [Advise]

/-- C10 witness: with a failing file open, `outputToFile` errors yet
`Advise` returns success. -/
theorem c10_witness :
    ("advice.txt" ≠ "" ∧
     outputToFile (some .openFail) "advice.txt" "pod-1" [msgA] =
       .error "failed to open file") ∧
    Advise (some .openFail) "advice.txt" "pod-1" (.ok [statsA]) = .ok () :=
  ⟨⟨by decide, by decide⟩,
   c10_outputToFile_error_discarded (some .openFail) "advice.txt" "pod-1"
     [statsA] [msgA] "failed to open file" (by decide) (by decide)⟩
